import Mathlib

/-!
Verification of the Client-Server-Practice-Golang repository: a client obtains
a fortune string after a nonce challenge-response exchange with an
authorization server (auth-server.go), which hands the client off to a
fortune server (embedded fortune-server source) via RPC.

The embedding models the per-datagram handlers as pure functions over explicit
state. Machine int64 arithmetic is modelled on Int with explicit wrapping into
the two's-complement range. Go map access is modelled by an association list
with overwrite-on-insert semantics. The standard-library MD5 digest is a
parameter (a function on byte lists): every claim about hashes is about the
bytes fed to the digest and the resulting hex string, uniformly in the digest.
Go's global math/rand generator is deterministic once seeded; the handlers call
rand.Seed(c) immediately before every rand.Int63() draw, so each draw is the
pure value rng c, where rng models the seed-to-first-Int63 function of the
generator and is a parameter of the handlers.
-/

/-! ## Wire message shapes (shared structs of client.go, auth-server.go and the
fortune server source) -/

/-- An error message from the server. -/
structure ErrMessage where
  Error : String
deriving DecidableEq, Repr

/-- Message containing a nonce from auth-server. -/
structure NonceMessage where
  Nonce : Int
deriving DecidableEq, Repr

/-- Message containing an MD5 hash from client to auth-server. -/
structure HashMessage where
  Hash : String
deriving DecidableEq, Repr

/-- Message with details for contacting the fortune-server. -/
structure FortuneInfoMessage where
  FortuneServer : String
  FortuneNonce : Int
deriving DecidableEq, Repr

/-- Message requesting a fortune from the fortune-server. -/
structure FortuneReqMessage where
  FortuneNonce : Int
deriving DecidableEq, Repr

/-- Response from the fortune-server containing the fortune. -/
structure FortuneMessage where
  Fortune : String
deriving DecidableEq, Repr

/-! ## Session tables

Go's `map[string]int64` with assignment-overwrites semantics, modelled as an
association list. -/

/-- Lookup `m[k]` in a Go string-to-int64 map: `v, ok := m[k]`. -/
def mapLookup : List (String × Int) → String → Option Int
  | [], _ => none
  | (k, v) :: rest, a => if k = a then some v else mapLookup rest a

/-- Assignment `m[k] = v` in a Go string-to-int64 map: overwrites any prior
binding of `k`. -/
def mapInsert : List (String × Int) → String → Int → List (String × Int)
  | [], k, v => [(k, v)]
  | (k0, v0) :: rest, k, v =>
      if k0 = k then (k, v) :: rest else (k0, v0) :: mapInsert rest k v

/-- Keep track of client state (auth-server.go): a map holding the nonce value
assigned to each client. The mutex only serializes access and has no pure
content. -/
structure ClientRecords where
  m : List (String × Int)
deriving DecidableEq, Repr

/-- The fortune server's RPC receiver: its own session map and its client-facing
UDP listen address (main sets `server := fserverUDP`). -/
structure FortuneServerRPC where
  m : List (String × Int)
  server : String
deriving DecidableEq, Repr

/-! ## int64 arithmetic and the varint/hex encoding -/

/-- Wrap an integer into the two's-complement int64 range, as Go's int64
addition does on overflow. -/
def wrap64 (x : Int) : Int := (x + 2 ^ 63) % 2 ^ 64 - 2 ^ 63

/-- The zigzag step of Go's `binary.PutVarint`: `ux := uint64(x) << 1;
if x < 0 { ux = ^ux }`. For any int64 value this is `2x` when `x ≥ 0` and
`-2x - 1` when `x < 0`, a natural number below `2^64`. -/
def zigzag (x : Int) : Nat := if x < 0 then (-(2 * x) - 1).toNat else (2 * x).toNat

/-- The loop of Go's `binary.PutUvarint`, with an explicit iteration bound.
Each step emits the low 7 bits with the continuation bit set while the value
is at least `0x80`. The bound 10 is Go's `binary.MaxVarintLen64`; for every
`x < 2^64` (in particular every zigzag-encoded int64) the loop of the source
runs at most 10 iterations, so on those inputs this function computes exactly
the bytes the source writes. -/
def putUvarintFuel : Nat → Nat → List Nat
  | 0, x => [x]
  | fuel + 1, x =>
      if x < 128 then [x] else (x % 128 + 128) :: putUvarintFuel fuel (x / 128)

/-- `binary.PutVarint(buf, x)` followed by taking `buf[:n]`: the byte sequence
of the signed varint encoding of the int64 value `x`. -/
def putVarint (x : Int) : List Nat := putUvarintFuel 10 (zigzag x)

/-- One lowercase hexadecimal digit, as produced by Go's `hex.EncodeToString`. -/
def hexDigit (n : Nat) : Char :=
  if n < 10 then Char.ofNat (48 + n) else Char.ofNat (87 + n)

/-- `hex.EncodeToString`: two lowercase hex digits per byte, high nibble
first. -/
def hexEncodeToString (bs : List Nat) : String :=
  String.mk (bs.flatMap fun b => [hexDigit (b / 16), hexDigit (b % 16)])

/-! ## The challenge hash, as computed on each side

`md5` stands for `md5.Sum` viewed as a function from the input byte list to
the 16-byte digest list; both sides call the same library function. -/

/-- client.go lines 94-97: `value := nonce.Nonce + secret;
n = binary.PutVarint(msg, value); hash := md5.Sum(msg[:n]);
hashStr := hex.EncodeToString(hash[:])`. -/
def clientComputeHash (md5 : List Nat → List Nat) (nonce secret : Int) : String :=
  hexEncodeToString (md5 (putVarint (wrap64 (nonce + secret))))

/-- auth-server.go lines 136-139: `value := validNonce + secret;
n := binary.PutVarint(msg, value); hashmd5 := md5.Sum(msg[:n]);
hashStr := hex.EncodeToString(hashmd5[:])`. -/
def serverComputeHash (md5 : List Nat → List Nat) (validNonce secret : Int) : String :=
  hexEncodeToString (md5 (putVarint (wrap64 (validNonce + secret))))

/-! ## The fortune server's RPC grant operation -/

/-- Result of `GetFortuneInfo`: the updated receiver state, the reply struct
written through the pointer argument, and the returned error value. -/
structure FortuneInfoResult where
  state : FortuneServerRPC
  fInfoMsg : FortuneInfoMessage
  err : Option String
deriving DecidableEq, Repr

/-- `FortuneServerRPC.GetFortuneInfo`: seeds the generator with the constant
110, draws a nonce, records it for `clientAddr` in the receiver's map, fills
the reply with the nonce and the receiver's `server` address, and returns nil.
`rngF` models the seed-to-first-Int63 function of Go's math/rand. -/
def GetFortuneInfo (rngF : Int → Int) (s : FortuneServerRPC) (clientAddr : String) :
    FortuneInfoResult :=
  let newNonce := rngF 110
  { state := { s with m := mapInsert s.m clientAddr newNonce }
    fInfoMsg := { FortuneServer := s.server, FortuneNonce := newNonce }
    err := none }

/-! ## The authorization service's per-datagram handler -/

/-- The decode outcome of `json.Unmarshal(msg, &hash)` on an inbound datagram
to the auth server: either the payload decodes as a `HashMessage`, or it does
not (the raw bytes are kept for reference). -/
inductive AuthPayload where
  | hashMsg (h : HashMessage)
  | other (raw : List Nat)
deriving DecidableEq, Repr

/-- A reply datagram the auth server can send. -/
inductive AuthReply where
  | nonce (m : NonceMessage)
  | err (m : ErrMessage)
  | fortuneInfo (m : FortuneInfoMessage)
deriving DecidableEq, Repr

/-- Result of one `handleRequest` invocation: the auth server's updated
records, the fortune server's updated RPC state (it mutates when the handler
performs the RPC call), the reply sent to the client (`none` when the handler
returns without writing a datagram), and the address passed to the
`GetFortuneInfo` RPC call when one was made. -/
structure AuthResult where
  record : ClientRecords
  fserver : FortuneServerRPC
  reply : Option AuthReply
  handoff : Option String
deriving DecidableEq, Repr

/-- auth-server.go `handleRequest` (lines 101-162). `md5` is the digest
function, `rng` the seed-to-first-Int63 function used for `rand.Seed(222);
rand.Int63()`, `rngF` the one the fortune server uses for its own
`rand.Seed(110); rand.Int63()` inside the RPC call. -/
def handleRequest (md5 : List Nat → List Nat) (rng rngF : Int → Int) (secret : Int)
    (record : ClientRecords) (fserver : FortuneServerRPC) (cAddr : String)
    (msg : AuthPayload) : AuthResult :=
  match msg with
  | .other _ =>
      let newNonce := rng 222
      { record := { m := mapInsert record.m cAddr newNonce }
        fserver := fserver
        reply := some (.nonce { Nonce := newNonce })
        handoff := none }
  | .hashMsg hash =>
      match mapLookup record.m cAddr with
      | none =>
          { record := record, fserver := fserver
            reply := some (.err { Error := "unknown remote client address" })
            handoff := none }
      | some validNonce =>
          let hashStr := serverComputeHash md5 validNonce secret
          if hashStr = hash.Hash then
            let r := GetFortuneInfo rngF fserver cAddr
            match r.err with
            | none =>
                { record := record, fserver := r.state
                  reply := some (.fortuneInfo r.fInfoMsg)
                  handoff := some cAddr }
            | some _ =>
                { record := record, fserver := r.state
                  reply := none
                  handoff := some cAddr }
          else
            { record := record, fserver := fserver
              reply := some (.err { Error := "unexpected hash value" })
              handoff := none }

/-! ## The fortune server's per-datagram handler -/

/-- The decode outcome of `json.Unmarshal(msg, &fortuneReq)` on an inbound
datagram to the fortune server. -/
inductive FortunePayload where
  | req (m : FortuneReqMessage)
  | other (raw : List Nat)
deriving DecidableEq, Repr

/-- A reply datagram the fortune server can send. -/
inductive FortuneReply where
  | err (m : ErrMessage)
  | fortune (m : FortuneMessage)
deriving DecidableEq, Repr

/-- fortune-server source, `fortune` (the per-request handler): malformed
request, unknown address, wrong nonce, or the fortune string. The handler
never mutates the session map, so only the reply is returned. -/
def fortune (fsrpc : FortuneServerRPC) (fortuneString : String) (cAddr : String)
    (msg : FortunePayload) : FortuneReply :=
  match msg with
  | .other _ => .err { Error := "could not interpret message" }
  | .req fortuneReq =>
      match mapLookup fsrpc.m cAddr with
      | none => .err { Error := "unknown remote client address" }
      | some validNonce =>
          if fortuneReq.FortuneNonce ≠ validNonce then
            .err { Error := "incorrect fortune nonce" }
          else
            .fortune { Fortune := fortuneString }

/-! ## Helper lemmas on the session-table model -/

theorem mapLookup_mapInsert_self (m : List (String × Int)) (k : String) (v : Int) :
    mapLookup (mapInsert m k v) k = some v := by
  induction m with
  | nil => simp [mapInsert, mapLookup]
  | cons p rest ih =>
      obtain ⟨k0, v0⟩ := p
      by_cases h : k0 = k
      · simp [mapInsert, mapLookup, h]
      · simp [mapInsert, mapLookup, h, ih]

theorem mapLookup_mapInsert_ne (m : List (String × Int)) (k : String) (v : Int)
    (a : String) (hne : a ≠ k) :
    mapLookup (mapInsert m k v) a = mapLookup m a := by
  induction m with
  | nil =>
      simp only [mapInsert, mapLookup]
      rw [if_neg (fun h => hne h.symm)]
  | cons p rest ih =>
      obtain ⟨k0, v0⟩ := p
      by_cases h : k0 = k
      · subst h
        simp only [mapInsert, mapLookup, if_pos rfl]
        rw [if_neg (fun h => hne h.symm), if_neg (fun h => hne h.symm)]
      · simp only [mapInsert, mapLookup, if_neg h]
        by_cases h2 : k0 = a
        · rw [if_pos h2, if_pos h2]
        · rw [if_neg h2, if_neg h2, ih]

/-! ## Claims -/

/-- C1: the client and the authorization service compute the same challenge
hash. For every nonce and secret, the client hash (MD5 of the varint encoding
of nonce + secret, rendered as lowercase hex) equals, byte for byte, the hash
the authorization service recomputes for the stored (token, secret) pair, so a
client that uses the stored nonce and the matching secret always passes
verification and receives the handoff reply. Uniform in the shared MD5 digest
function. -/
theorem hash_agreement_and_verification
    (md5 : List Nat → List Nat) (rng rngF : Int → Int) (nonce secret : Int)
    (record : ClientRecords) (fserver : FortuneServerRPC) (cAddr : String)
    (hstored : mapLookup record.m cAddr = some nonce) :
    clientComputeHash md5 nonce secret = serverComputeHash md5 nonce secret ∧
    (handleRequest md5 rng rngF secret record fserver cAddr
        (.hashMsg { Hash := clientComputeHash md5 nonce secret })).reply =
      some (.fortuneInfo { FortuneServer := fserver.server, FortuneNonce := rngF 110 }) := by
  refine ⟨rfl, ?_⟩
  simp [handleRequest, hstored, GetFortuneInfo, clientComputeHash, serverComputeHash]

theorem hash_agreement_witness :
    mapLookup [("127.0.0.1:2020", 5)] "127.0.0.1:2020" = some 5 ∧
    (clientComputeHash (fun bs => bs) 5 3 = serverComputeHash (fun bs => bs) 5 3 ∧
     (handleRequest (fun bs => bs) (fun _ => 0) (fun _ => 7) 3
        ⟨[("127.0.0.1:2020", 5)]⟩ ⟨[], "127.0.0.1:5050"⟩ "127.0.0.1:2020"
        (.hashMsg { Hash := clientComputeHash (fun bs => bs) 5 3 })).reply =
       some (.fortuneInfo { FortuneServer := "127.0.0.1:5050", FortuneNonce := 7 })) :=
  ⟨by decide,
   hash_agreement_and_verification (fun bs => bs) (fun _ => 0) (fun _ => 7) 5 3
     ⟨[("127.0.0.1:2020", 5)]⟩ ⟨[], "127.0.0.1:5050"⟩ "127.0.0.1:2020" (by decide)⟩

/-- C2: evaluation of the code at the claim's failing scenario. The claim says
two independent probe handlings yield different tokens with overwhelming
probability; the code instead reseeds the generator with the constant 222
(respectively 110 in the grant call) immediately before every draw, so any two
probe handlings, from any two addresses and any two states, reply with the
identical token, and any two grant calls allocate the identical access
token. -/
theorem probe_tokens_always_identical
    (md5 : List Nat → List Nat) (rng rngF : Int → Int) (secret : Int)
    (r1 r2 : ClientRecords) (f1 f2 : FortuneServerRPC) (a1 a2 : String)
    (g1 g2 : List Nat) (s1 s2 : FortuneServerRPC) (b1 b2 : String) :
    (handleRequest md5 rng rngF secret r1 f1 a1 (.other g1)).reply =
      (handleRequest md5 rng rngF secret r2 f2 a2 (.other g2)).reply ∧
    (handleRequest md5 rng rngF secret r1 f1 a1 (.other g1)).reply =
      some (.nonce { Nonce := rng 222 }) ∧
    (GetFortuneInfo rngF s1 b1).fInfoMsg.FortuneNonce =
      (GetFortuneInfo rngF s2 b2).fInfoMsg.FortuneNonce :=
  ⟨rfl, rfl, rfl⟩

/-- C3: evaluation of the code at the claim's failing scenario. The claim says
that after a second Probe from the same address, a HashResponse computed
against the first nonce is rejected with the unexpected-hash error; in the
code the second probe stores the same nonce as the first (constant reseed), so
the stale hash still matches and the handler replies with the handoff
information instead. -/
theorem stale_hash_accepted_after_reprobe
    (md5 : List Nat → List Nat) (rng rngF : Int → Int) (secret : Int)
    (record0 : ClientRecords) (fserver0 : FortuneServerRPC) (cAddr : String)
    (g1 g2 : List Nat) :
    (handleRequest md5 rng rngF secret record0 fserver0 cAddr (.other g1)).reply =
      some (.nonce { Nonce := rng 222 }) ∧
    (handleRequest md5 rng rngF secret
        (handleRequest md5 rng rngF secret
            (handleRequest md5 rng rngF secret record0 fserver0 cAddr (.other g1)).record
            fserver0 cAddr (.other g2)).record
        fserver0 cAddr
        (.hashMsg { Hash := clientComputeHash md5 (rng 222) secret })).reply =
      some (.fortuneInfo { FortuneServer := fserver0.server, FortuneNonce := rngF 110 }) := by
  refine ⟨rfl, ?_⟩
  have hl : mapLookup (mapInsert (mapInsert record0.m cAddr (rng 222)) cAddr (rng 222))
      cAddr = some (rng 222) := mapLookup_mapInsert_self _ _ _
  simp [handleRequest, hl, GetFortuneInfo, clientComputeHash, serverComputeHash]

/-- C4 counterexample: garbage bytes sent to the authorization service do not
yield the malformed-message error notice; the handler treats them as a probe
and replies with a nonce message. -/
theorem auth_malformed_replies_nonce_not_error :
    (handleRequest (fun bs => bs) (fun _ => 9) (fun _ => 7) 0 ⟨[]⟩ ⟨[], "f"⟩ "c"
        (.other [255, 0, 1])).reply = some (.nonce { Nonce := 9 }) ∧
    (handleRequest (fun bs => bs) (fun _ => 9) (fun _ => 7) 0 ⟨[]⟩ ⟨[], "f"⟩ "c"
        (.other [255, 0, 1])).reply ≠
      some (.err { Error := "could not interpret message" }) := by
  exact ⟨rfl, by decide⟩

/-- C4 (amended): only the content service replies with the
could-not-interpret error on an undecodable payload; the authorization
service instead treats any payload that does not decode as a HashMessage as a
probe and replies with a fresh nonce challenge. -/
theorem malformed_input_replies
    (md5 : List Nat → List Nat) (rng rngF : Int → Int) (secret : Int)
    (record : ClientRecords) (fserver fsrpc : FortuneServerRPC)
    (fortuneString cAddr cAddr2 : String) (raw raw2 : List Nat) :
    fortune fsrpc fortuneString cAddr2 (.other raw2) =
      .err { Error := "could not interpret message" } ∧
    (handleRequest md5 rng rngF secret record fserver cAddr (.other raw)).reply =
      some (.nonce { Nonce := rng 222 }) :=
  ⟨rfl, rfl⟩

/-- C5: for every inbound datagram to the authorization service that does not
decode as a HashMessage, the handler generates the token, stores it for the
sender's address (overwriting any prior entry, all other addresses untouched),
replies with the nonce challenge, makes no RPC call and leaves the fortune
server's state unchanged — so a client can always restart by sending a
non-hash payload. -/
theorem probe_restart_behavior
    (md5 : List Nat → List Nat) (rng rngF : Int → Int) (secret : Int)
    (record : ClientRecords) (fserver : FortuneServerRPC) (cAddr : String)
    (raw : List Nat) :
    mapLookup (handleRequest md5 rng rngF secret record fserver cAddr
        (.other raw)).record.m cAddr = some (rng 222) ∧
    (∀ a, a ≠ cAddr →
      mapLookup (handleRequest md5 rng rngF secret record fserver cAddr
          (.other raw)).record.m a = mapLookup record.m a) ∧
    (handleRequest md5 rng rngF secret record fserver cAddr (.other raw)).reply =
      some (.nonce { Nonce := rng 222 }) ∧
    (handleRequest md5 rng rngF secret record fserver cAddr (.other raw)).fserver =
      fserver ∧
    (handleRequest md5 rng rngF secret record fserver cAddr (.other raw)).handoff =
      none :=
  ⟨mapLookup_mapInsert_self _ _ _,
   fun _ ha => mapLookup_mapInsert_ne _ _ _ _ ha, rfl, rfl, rfl⟩

theorem probe_restart_behavior_witness :
    "x" ≠ "c" ∧
    mapLookup (handleRequest (fun bs => bs) (fun _ => 9) (fun _ => 7) 0
        ⟨[("x", 4)]⟩ ⟨[], "f"⟩ "c" (.other [1])).record.m "x" =
      mapLookup [("x", 4)] "x" :=
  ⟨by decide,
   (probe_restart_behavior (fun bs => bs) (fun _ => 9) (fun _ => 7) 0
      ⟨[("x", 4)]⟩ ⟨[], "f"⟩ "c" [1]).2.1 "x" (by decide)⟩

/-- C6: content delivery dispatch. For every decoded FortuneReqMessage: an
address with no entry in the fortune server's session map gets the
unknown-address error; an entry with a different stored token gets the
incorrect-nonce error; a matching token gets the FortuneMessage carrying
exactly the configured fortune string. -/
theorem fortune_dispatch
    (fsrpc : FortuneServerRPC) (fortuneString cAddr : String) (t : Int) :
    (mapLookup fsrpc.m cAddr = none →
      fortune fsrpc fortuneString cAddr (.req { FortuneNonce := t }) =
        .err { Error := "unknown remote client address" }) ∧
    (∀ v, mapLookup fsrpc.m cAddr = some v → t ≠ v →
      fortune fsrpc fortuneString cAddr (.req { FortuneNonce := t }) =
        .err { Error := "incorrect fortune nonce" }) ∧
    (∀ v, mapLookup fsrpc.m cAddr = some v → t = v →
      fortune fsrpc fortuneString cAddr (.req { FortuneNonce := t }) =
        .fortune { Fortune := fortuneString }) := by
  refine ⟨?_, ?_, ?_⟩
  · intro h
    simp [fortune, h]
  · intro v hv ht
    simp [fortune, hv, ht]
  · intro v hv ht
    subst ht
    simp [fortune, hv]

theorem fortune_dispatch_witness :
    (mapLookup ([] : List (String × Int)) "c" = none ∧
      fortune ⟨[], "f"⟩ "hello" "c" (.req { FortuneNonce := 3 }) =
        .err { Error := "unknown remote client address" }) ∧
    (mapLookup [("c", 4)] "c" = some 4 ∧ (3 : Int) ≠ 4 ∧
      fortune ⟨[("c", 4)], "f"⟩ "hello" "c" (.req { FortuneNonce := 3 }) =
        .err { Error := "incorrect fortune nonce" }) ∧
    (mapLookup [("c", 4)] "c" = some 4 ∧
      fortune ⟨[("c", 4)], "f"⟩ "hello" "c" (.req { FortuneNonce := 4 }) =
        .fortune { Fortune := "hello" }) :=
  ⟨⟨by decide, (fortune_dispatch ⟨[], "f"⟩ "hello" "c" 3).1 (by decide)⟩,
   ⟨by decide, by decide,
    (fortune_dispatch ⟨[("c", 4)], "f"⟩ "hello" "c" 3).2.1 4 (by decide) (by decide)⟩,
   ⟨by decide, (fortune_dispatch ⟨[("c", 4)], "f"⟩ "hello" "c" 4).2.2 4 (by decide) rfl⟩⟩

/-- C7: unknown-address rejection at the authorization service. A HashMessage
from an address with no entry in the records is answered with the
unknown-address error, no RPC handoff call is made, and the fortune server's
state is untouched. -/
theorem unknown_address_rejection
    (md5 : List Nat → List Nat) (rng rngF : Int → Int) (secret : Int)
    (record : ClientRecords) (fserver : FortuneServerRPC) (cAddr : String)
    (h : HashMessage) (hnone : mapLookup record.m cAddr = none) :
    (handleRequest md5 rng rngF secret record fserver cAddr (.hashMsg h)).reply =
      some (.err { Error := "unknown remote client address" }) ∧
    (handleRequest md5 rng rngF secret record fserver cAddr (.hashMsg h)).handoff =
      none ∧
    (handleRequest md5 rng rngF secret record fserver cAddr (.hashMsg h)).fserver =
      fserver := by
  simp [handleRequest, hnone]

theorem unknown_address_rejection_witness :
    mapLookup ([] : List (String × Int)) "c" = none ∧
    ((handleRequest (fun bs => bs) (fun _ => 9) (fun _ => 7) 0 ⟨[]⟩ ⟨[], "f"⟩ "c"
        (.hashMsg { Hash := "00" })).reply =
      some (.err { Error := "unknown remote client address" }) ∧
     (handleRequest (fun bs => bs) (fun _ => 9) (fun _ => 7) 0 ⟨[]⟩ ⟨[], "f"⟩ "c"
        (.hashMsg { Hash := "00" })).handoff = none ∧
     (handleRequest (fun bs => bs) (fun _ => 9) (fun _ => 7) 0 ⟨[]⟩ ⟨[], "f"⟩ "c"
        (.hashMsg { Hash := "00" })).fserver = ⟨[], "f"⟩) :=
  ⟨by decide,
   unknown_address_rejection (fun bs => bs) (fun _ => 9) (fun _ => 7) 0
     ⟨[]⟩ ⟨[], "f"⟩ "c" { Hash := "00" } (by decide)⟩

/-- C8: handoff postcondition. A call to GetFortuneInfo records the freshly
drawn token for the client address in the fortune server's own map
(overwriting any prior entry for that address, all other addresses
untouched) and fills the reply with the fortune server's own client-facing
listen address and exactly the stored token. -/
theorem get_fortune_info_postcondition
    (rngF : Int → Int) (s : FortuneServerRPC) (clientAddr : String) :
    mapLookup (GetFortuneInfo rngF s clientAddr).state.m clientAddr =
      some (rngF 110) ∧
    (∀ a, a ≠ clientAddr →
      mapLookup (GetFortuneInfo rngF s clientAddr).state.m a = mapLookup s.m a) ∧
    (GetFortuneInfo rngF s clientAddr).fInfoMsg.FortuneServer = s.server ∧
    (GetFortuneInfo rngF s clientAddr).fInfoMsg.FortuneNonce = rngF 110 ∧
    (GetFortuneInfo rngF s clientAddr).state.server = s.server :=
  ⟨mapLookup_mapInsert_self _ _ _,
   fun _ ha => mapLookup_mapInsert_ne _ _ _ _ ha, rfl, rfl, rfl⟩

theorem get_fortune_info_postcondition_witness :
    "x" ≠ "c" ∧
    mapLookup (GetFortuneInfo (fun _ => 7) ⟨[("x", 2)], "f"⟩ "c").state.m "x" =
      mapLookup [("x", 2)] "x" :=
  ⟨by decide,
   (get_fortune_info_postcondition (fun _ => 7) ⟨[("x", 2)], "f"⟩ "c").2.1 "x"
     (by decide)⟩

/-- C9: the grant operation never fails. GetFortuneInfo returns the nil error
for every client address, so whenever the RPC call is delivered the
authorization service's drop-on-handoff-failure branch is unreachable: a
matching hash is always answered with the handoff reply. -/
theorem get_fortune_info_never_fails
    (rngF : Int → Int) (s : FortuneServerRPC) (clientAddr : String)
    (md5 : List Nat → List Nat) (rng : Int → Int) (secret : Int)
    (record : ClientRecords) (fserver : FortuneServerRPC) (cAddr : String)
    (h : HashMessage) (v : Int)
    (hstored : mapLookup record.m cAddr = some v)
    (hmatch : serverComputeHash md5 v secret = h.Hash) :
    (GetFortuneInfo rngF s clientAddr).err = none ∧
    (handleRequest md5 rng rngF secret record fserver cAddr (.hashMsg h)).reply =
      some (.fortuneInfo { FortuneServer := fserver.server, FortuneNonce := rngF 110 }) := by
  refine ⟨rfl, ?_⟩
  simp [handleRequest, hstored, hmatch, GetFortuneInfo]

theorem get_fortune_info_never_fails_witness :
    mapLookup [("c", 5)] "c" = some 5 ∧
    serverComputeHash (fun bs => bs) 5 3 =
      (HashMessage.mk (serverComputeHash (fun bs => bs) 5 3)).Hash ∧
    ((GetFortuneInfo (fun _ => 7) ⟨[], "f"⟩ "b").err = none ∧
     (handleRequest (fun bs => bs) (fun _ => 9) (fun _ => 7) 3 ⟨[("c", 5)]⟩
        ⟨[], "f"⟩ "c"
        (.hashMsg (HashMessage.mk (serverComputeHash (fun bs => bs) 5 3)))).reply =
      some (.fortuneInfo { FortuneServer := "f", FortuneNonce := 7 })) :=
  ⟨by decide, rfl,
   get_fortune_info_never_fails (fun _ => 7) ⟨[], "f"⟩ "b" (fun bs => bs)
     (fun _ => 9) 3 ⟨[("c", 5)]⟩ ⟨[], "f"⟩ "c"
     (HashMessage.mk (serverComputeHash (fun bs => bs) 5 3)) 5 (by decide) rfl⟩

/-- C10: frame property of hash handling. Handling a HashMessage never
modifies the authorization service's client records: whatever the outcome
(unknown address, hash mismatch, or successful handoff), the records are
returned unchanged, so a rejected client may retry against the same stored
nonce without re-probing. -/
theorem hash_handling_preserves_records
    (md5 : List Nat → List Nat) (rng rngF : Int → Int) (secret : Int)
    (record : ClientRecords) (fserver : FortuneServerRPC) (cAddr : String)
    (h : HashMessage) :
    (handleRequest md5 rng rngF secret record fserver cAddr (.hashMsg h)).record =
      record := by
  unfold handleRequest
  cases hm : mapLookup record.m cAddr with
  | none => rfl
  | some v =>
      dsimp only
      split
      · rfl
      · rfl
